import Mathlib

/-!
# jw6: object pool, layered draw batcher and HUD clock

A shallow embedding of `src/main.cpp`.

* C++ `int` is `Int`; arithmetic of `seconds_to_hm` goes through `wrap32`.
* `float`/`f32` is an abstract type `F` carrying `0`, `+`, `-`, `*` and the
  conversion from `int`; no property below depends on rounding.
* raylib/raymath are an external library: their types (`Color`, `Texture2D`,
  `Font`) are type parameters and the functions the embedded code calls are
  the fields of `Raylib`.
* `Entity*` is `Option Nat`: `none` is `nullptr`, `some i` is `&state->entities[i]`.
* A failed `assert`, an out-of-bounds array access and a null dereference end
  the run with a `Halt`.
-/

namespace Jw6

/-! ## Machine integers and halting -/

/-- Two's-complement wrap of a mathematical integer into the 32-bit `int` range. -/
def wrap32 (x : Int) : Int := (x + 2147483648) % 4294967296 - 2147483648

/-- Ways a run stops without returning. -/
inductive Halt
  /-- Failure of `assert(renderer->layer_stack.count == 0 && "unclosed layers!")`. -/
  | unclosed_layers
  /-- Failure of the assertion carrying the message "Ran out of entities". -/
  | ran_out_of_entities
  /-- A `pop` on an empty `daa` (fatal by the specification of the batcher). -/
  | pop_empty_stack
  /-- An access to `layers[i]` or `entities[i]` outside the array. -/
  | out_of_bounds
  /-- A dereference of `nullptr`. -/
  | null_deref
deriving DecidableEq, Repr

/-- The C `assert`: continue when the condition holds, halt otherwise. -/
def assert (cond : Bool) (failure : Halt) : Except Halt Unit :=
  if cond then .ok () else .error failure

/-- The two fatal layer-imbalance conditions: a pop on the empty stack and a
non-empty stack at flush time. -/
def Halt.is_layer_imbalance : Halt → Bool
  | .unclosed_layers => true
  | .pop_empty_stack => true
  | _ => false

/-! ## `seconds_to_hm` (main.cpp 36-46) -/

structure Time where
  h : Int
  m : Int
  s : Int
deriving DecidableEq, Repr

/-- Embedding of `seconds_to_hm`: `/` on `int` truncates, every intermediate
result is wrapped to 32 bits. -/
def seconds_to_hm (seconds : Int) : Time :=
  let h := wrap32 (Int.tdiv seconds 3600)
  let m := Int.tdiv (wrap32 (seconds - wrap32 (3600 * h))) 60
  let s := wrap32 (wrap32 (seconds - wrap32 (3600 * h)) - wrap32 (m * 60))
  { h := h, m := m, s := s }

/-! ## Geometry (raylib value types and the `v2` helpers, main.cpp 16-26, 124-150) -/

structure Vector2 (F : Type) where
  x : F
  y : F
deriving DecidableEq, Repr

structure Vector4 (F : Type) where
  x : F
  y : F
  z : F
  w : F
deriving DecidableEq, Repr

structure Rectangle (F : Type) where
  x : F
  y : F
  width : F
  height : F
deriving DecidableEq, Repr

/-- The raylib functions called by the embedded code, as seen during one call. -/
structure Raylib (F : Type) where
  GetFrameTime : F
  CheckCollisionRecs : Rectangle F → Rectangle F → Bool
  Vector2MoveTowards : Vector2 F → Vector2 F → F → Vector2 F
  Vector2Multiply : Vector2 F → Vector2 F → Vector2 F

section Geometry
variable {F : Type}

/-- Macro `v2of(val)` applied to an `int` literal: `Vector2{float(val), float(val)}`. -/
def v2of [IntCast F] (val : Int) : Vector2 F := { x := (val : F), y := (val : F) }

/-- Macro `ZERO`, that is `v2of(0)`; `float(0)` is the all-zero-bits float. -/
def ZERO [Zero F] : Vector2 F := { x := 0, y := 0 }

/-- Macro `to_rect`. -/
def to_rect (v : Vector4 F) : Rectangle F := { x := v.x, y := v.y, width := v.z, height := v.w }

/-- Macro `xyv4`. -/
def xyv4 (v : Vector4 F) : Vector2 F := { x := v.x, y := v.y }

/-- Function `rv2`. -/
def rv2 (pos size : Vector2 F) : Rectangle F :=
  { x := pos.x, y := pos.y, width := size.x, height := size.y }

/-- The overload `operator*(const Vector2&, const float)`. -/
def Vector2.mul_float (rl : Raylib F) (a : Vector2 F) (b : F) : Vector2 F :=
  rl.Vector2Multiply a { x := b, y := b }

end Geometry

/-! ## Draw batcher (main.cpp 167-315) -/

inductive DrawObjType
  | NONE
  | DRAW_OBJ_QUAD
  | DRAW_OBJ_TEXTURE
  | DRAW_OBJ_TEXTURE_PRO
  | DRAW_QUAD_LINES
  | DRAW_OBJ_TEXT
  | DRAW_OBJ_CIRCLE
deriving DecidableEq, Repr

structure DrawObj (F Color Texture2D Font : Type) where
  type : DrawObjType
  src : Vector4 F
  dest : Vector4 F
  tint : Color
  line_tick : F
  tex : Texture2D
  text : String
  text_size : F
  radius : F
  f : Font
deriving DecidableEq, Repr

/-- One call into the raster backend made by `flush_renderer`. -/
inductive RasterCall (F Color Texture2D Font : Type)
  | DrawRectangleRec (rec : Rectangle F) (color : Color)
  | DrawTextureRec (texture : Texture2D) (source : Rectangle F) (position : Vector2 F)
      (tint : Color)
  | DrawRectangleLinesEx (rec : Rectangle F) (lineThick : F) (color : Color)
  | DrawTexturePro (texture : Texture2D) (source dest : Rectangle F) (origin : Vector2 F)
      (rotation : F) (tint : Color)
  | DrawTextEx (font : Font) (text : String) (position : Vector2 F) (fontSize spacing : F)
      (tint : Color)
  | DrawCircleV (center : Vector2 F) (radius : F) (color : Color)
deriving DecidableEq, Repr

/-- Modelled from the spec: `da.hpp` is absent, so a `daa<T>` is the list of
its `count` live items in insertion order; `append` adds at the end, and
storage and capacity are not represented. -/
abbrev daa (α : Type) := List α

/-- Modelled from the spec: `daa::pop` of the absent `da.hpp` removes and
returns the last item; on an empty array it is the fatal caller error of
the specification (section 4.3). -/
def daa.pop {α : Type} (xs : daa α) : Except Halt (α × daa α) :=
  match xs.getLast? with
  | none => .error .pop_empty_stack
  | some x => .ok (x, xs.dropLast)

section Batcher
variable {F Color Texture2D Font : Type}

structure RenderLayer (F Color Texture2D Font : Type) where
  objs : daa (DrawObj F Color Texture2D Font)

def MAX_LAYERS : Nat := 1024

/-- Struct `Renderer`; `layers i` for `i < MAX_LAYERS` is `layers[i]`. -/
structure Renderer (F Color Texture2D Font : Type) where
  layers : Nat → RenderLayer F Color Texture2D Font
  atlas : Texture2D
  current_layer : Int
  layer_stack : daa Int

def Renderer.push_layer (r : Renderer F Color Texture2D Font) (layer : Int) :
    Renderer F Color Texture2D Font :=
  { r with layer_stack := r.layer_stack ++ [r.current_layer], current_layer := layer }

def Renderer.pop_layer (r : Renderer F Color Texture2D Font) :
    Except Halt (Renderer F Color Texture2D Font) :=
  match daa.pop r.layer_stack with
  | .error e => .error e
  | .ok (top, rest) => .ok { r with current_layer := top, layer_stack := rest }

/-- Method `Renderer::add`; indexing `layers` outside `0..MAX_LAYERS-1` is
undefined behaviour and halts the model. -/
def Renderer.add (r : Renderer F Color Texture2D Font) (obj : DrawObj F Color Texture2D Font) :
    Except Halt (Renderer F Color Texture2D Font) :=
  if 0 ≤ r.current_layer ∧ r.current_layer < (MAX_LAYERS : Int) then
    .ok { r with layers := (Function.update r.layers r.current_layer.toNat
            { objs := (r.layers r.current_layer.toNat).objs ++ [obj] }) }
  else .error .out_of_bounds

/-- Function `renderer_init`; the atlas is assigned by the caller afterwards. -/
def renderer_init (r : Renderer F Color Texture2D Font) : Renderer F Color Texture2D Font :=
  { r with layers := fun _ => { objs := [] }, layer_stack := [], current_layer := 0 }

/-- The `switch (it.type)` of `flush_renderer`: the backend call made for one
recorded object (none for `NONE`). -/
def dispatch [Zero F] [IntCast F] (atlas : Texture2D) (it : DrawObj F Color Texture2D Font) :
    List (RasterCall F Color Texture2D Font) :=
  match it.type with
  | .NONE => []
  | .DRAW_OBJ_QUAD => [.DrawRectangleRec (to_rect it.dest) it.tint]
  | .DRAW_OBJ_TEXTURE =>
      [.DrawTextureRec atlas (to_rect it.src) { x := it.dest.x, y := it.dest.y } it.tint]
  | .DRAW_QUAD_LINES => [.DrawRectangleLinesEx (to_rect it.dest) it.line_tick it.tint]
  | .DRAW_OBJ_TEXTURE_PRO =>
      [.DrawTexturePro it.tex (to_rect it.src) (to_rect it.dest) ZERO 0 it.tint]
  | .DRAW_OBJ_TEXT =>
      [.DrawTextEx it.f it.text (xyv4 it.dest) it.text_size ((2 : Int) : F) it.tint]
  | .DRAW_OBJ_CIRCLE => [.DrawCircleV (xyv4 it.dest) it.radius it.tint]

/-- The inner loop of `flush_renderer` over one layer, from item `j` on. -/
def flush_layer [Zero F] [IntCast F] (atlas : Texture2D) :
    List (DrawObj F Color Texture2D Font) → List (RasterCall F Color Texture2D Font) →
    List (RasterCall F Color Texture2D Font)
  | [], calls => calls
  | it :: rest, calls => flush_layer atlas rest (calls ++ dispatch atlas it)

/-- The outer loop of `flush_renderer` from layer `i` on, `n` layers left:
dispatch the layer, then `layer->objs.count = 0`. -/
def flush_loop [Zero F] [IntCast F] :
    Nat → Nat → Renderer F Color Texture2D Font → List (RasterCall F Color Texture2D Font) →
    Renderer F Color Texture2D Font × List (RasterCall F Color Texture2D Font)
  | 0, _, r, calls => (r, calls)
  | n + 1, i, r, calls =>
      flush_loop n (i + 1) { r with layers := Function.update r.layers i { objs := [] } }
        (flush_layer r.atlas (r.layers i).objs calls)

/-- Function `flush_renderer`: the backend calls made, in order, and the
renderer left behind, or the halt of the closing assertion. The calls are
made before the assertion runs. -/
def flush_renderer [Zero F] [IntCast F] (r : Renderer F Color Texture2D Font) :
    List (RasterCall F Color Texture2D Font) × Except Halt (Renderer F Color Texture2D Font) :=
  let out := flush_loop MAX_LAYERS 0 r []
  (out.2, match assert (out.1.layer_stack.length == 0) .unclosed_layers with
          | .error e => .error e
          | .ok _ => .ok out.1)

/-- A call made on the renderer between two flushes. -/
inductive RenderOp (F Color Texture2D Font : Type)
  | push_layer (layer : Int)
  | pop_layer
  | add (obj : DrawObj F Color Texture2D Font)
deriving DecidableEq, Repr

def RenderOp.apply (r : Renderer F Color Texture2D Font) :
    RenderOp F Color Texture2D Font → Except Halt (Renderer F Color Texture2D Font)
  | .push_layer layer => .ok (r.push_layer layer)
  | .pop_layer => r.pop_layer
  | .add obj => r.add obj

/-- Run a sequence of renderer calls, stopping at the first halt. -/
def run_ops : List (RenderOp F Color Texture2D Font) → Renderer F Color Texture2D Font →
    Except Halt (Renderer F Color Texture2D Font)
  | [], r => .ok r
  | op :: ops, r =>
      match op.apply r with
      | .error e => .error e
      | .ok r1 => run_ops ops r1

/-- One recording pass: the calls, then `flush_renderer`. Yields the backend
calls made and the final renderer or the halt. -/
def record_and_flush [Zero F] [IntCast F] (ops : List (RenderOp F Color Texture2D Font))
    (r : Renderer F Color Texture2D Font) :
    List (RasterCall F Color Texture2D Font) × Except Halt (Renderer F Color Texture2D Font) :=
  match run_ops ops r with
  | .error e => ([], .error e)
  | .ok r1 => flush_renderer r1

/-! ### The batcher as the specification words it -/

/-- A renderer as it stands between flushes: every layer empty, the layer
stack empty and the current layer inside the array. -/
def Renderer.fresh (r : Renderer F Color Texture2D Font) : Prop :=
  (∀ i, i < MAX_LAYERS → (r.layers i).objs = []) ∧ r.layer_stack = [] ∧
  0 ≤ r.current_layer ∧ r.current_layer < (MAX_LAYERS : Int)

/-- Nesting depth after the calls, starting from depth `d`; `none` when a
pop has no matching push. -/
def depth_after : List (RenderOp F Color Texture2D Font) → Nat → Option Nat
  | [], d => some d
  | .push_layer _ :: ops, d => depth_after ops (d + 1)
  | .pop_layer :: ops, d =>
      match d with
      | 0 => none
      | k + 1 => depth_after ops k
  | .add _ :: ops, d => depth_after ops d

/-- Every pop has an earlier matching push and every push is later popped. -/
def balanced (ops : List (RenderOp F Color Texture2D Font)) : Bool :=
  depth_after ops 0 == some 0

/-- Every pushed layer index lies in `0..MAX_LAYERS-1`. -/
def layers_in_range : List (RenderOp F Color Texture2D Font) → Bool
  | [] => true
  | .push_layer layer :: ops =>
      decide (0 ≤ layer) && decide (layer < (MAX_LAYERS : Int)) && layers_in_range ops
  | _ :: ops => layers_in_range ops

/-- The recorded commands in recording order, each with the layer that was
current when it was recorded (`cur` is current, `saved` the saved layers,
innermost first). Recording stops at a pop without a matching push. -/
def recorded : List (RenderOp F Color Texture2D Font) → Int → List Int →
    List (Int × DrawObj F Color Texture2D Font)
  | [], _, _ => []
  | .push_layer layer :: ops, cur, saved => recorded ops layer (cur :: saved)
  | .pop_layer :: ops, _, saved =>
      match saved with
      | [] => []
      | top :: rest => recorded ops top rest
  | .add obj :: ops, cur, saved => (cur, obj) :: recorded ops cur saved

/-- The commands of layer `L`, in the order they were recorded. -/
def layer_commands (tagged : List (Int × DrawObj F Color Texture2D Font)) (L : Nat) :
    List (DrawObj F Color Texture2D Font) :=
  (tagged.filter (fun p => decide (p.1 = (L : Int)))).map (fun p => p.2)

/-- Concatenation over the layers, in ascending index order, of each
layer's commands in recording order. -/
def by_layer (tagged : List (Int × DrawObj F Color Texture2D Font)) :
    List (DrawObj F Color Texture2D Font) :=
  (List.range MAX_LAYERS).flatMap (layer_commands tagged)

/-- All objects passed to `add`, in call order. -/
def added : List (RenderOp F Color Texture2D Font) → List (DrawObj F Color Texture2D Font)
  | [] => []
  | .add obj :: ops => obj :: added ops
  | _ :: ops => added ops

end Batcher

/-! ## Object pool (main.cpp 317-470, 484-497, 545-564, 636-644) -/

inductive EntityId
  | EID_NONE
deriving DecidableEq, Repr

inductive EntityType
  | ET_NONE
  | ET_PROJECTILE
  | ET_ENEMY
deriving DecidableEq, Repr

inductive EntityProp
  | EP_NONE
deriving DecidableEq, Repr

/-- Struct `Entity`. `handle` is an `int`; `last_collided`, `riding` and
`target` are `Entity*`; `user_data` is a `rawptr` into the persistent arena
(`none` is null). -/
structure Entity (F : Type) where
  handle : Int
  pos : Vector2 F
  vel : Vector2 F
  size : Vector2 F
  remainder : Vector2 F
  id : EntityId
  type : EntityType
  props : daa EntityProp
  valid : Bool
  grounded : Bool
  last_collided : Option Nat
  user_data : Option Nat
  facing : F
  riding : Option Nat
  trigger : Bool
  was_selected : Bool
  health : F
  attacked : Bool
  target : Option Nat
deriving DecidableEq, Repr

def MAX_ENTITIES : Nat := 2046

def PLAYER_MAX_HEALTH : Int := 10

def ENEMY_HEALTH : Int := 10

/-- The part of struct `State` the pool operations read or write;
`entities i` for `i < MAX_ENTITIES` is `entities[i]`. The camera, render
targets, timers, font, sounds and `end` flag are left out. -/
structure State (F : Type) where
  entities : Nat → Entity F
  player : Option Nat
  score : Int

section Pool
variable {F : Type}

/-- The record written by `memset(en, 0, sizeof(Entity))`. -/
def Entity.zeroed [Zero F] : Entity F :=
  { handle := 0, pos := ZERO, vel := ZERO, size := ZERO, remainder := ZERO,
    id := .EID_NONE, type := .ET_NONE, props := [], valid := false, grounded := false,
    last_collided := none, user_data := none, facing := 0, riding := none,
    trigger := false, was_selected := false, health := 0, attacked := false,
    target := none }

/-- The pool after `memset(state->entities, 0, sizeof(Entity) * MAX_ENTITIES)`
and the zeroing of the score in `main`, before `player_init`. -/
def State.initial [Zero F] : State F :=
  { entities := fun _ => Entity.zeroed, player := none, score := 0 }

/-- The pool with `entities[i]` replaced by `e`. -/
def State.set (s : State F) (i : Nat) (e : Entity F) : State F :=
  { s with entities := Function.update s.entities i e }

/-- A write through an `Entity*`: halts on `nullptr`. -/
def State.write (s : State F) (en : Option Nat) (f : Entity F → Entity F) :
    Except Halt (State F) :=
  match en with
  | none => .error .null_deref
  | some i => .ok (s.set i (f (s.entities i)))

/-- Function `en_box`. -/
def en_box (en : Entity F) : Rectangle F := rv2 en.pos en.size

/-- Function `en_setup`; `make<EntityProp>(&ctx.main, 8)` is an empty list. -/
def en_setup [Zero F] (s : State F) (en : Option Nat) (pos size : Vector2 F) :
    Except Halt (State F) :=
  s.write en (fun e =>
    { e with pos := pos, remainder := ZERO, vel := ZERO, size := size, valid := true,
             props := [] })

/-- Function `en_invalidate`. -/
def en_invalidate [Zero F] (s : State F) (en : Option Nat) : Except Halt (State F) :=
  s.write en (fun _ => Entity.zeroed)

/-- The loop of `new_en` from slot `i` on, `n` slots left, followed by the
code after the loop: `assert(true && "Ran out of entities"); return nullptr;`. -/
def new_en_loop : Nat → Nat → State F → Except Halt (Option Nat × State F)
  | 0, _, s =>
      match assert (true && true) .ran_out_of_entities with
      | .error e => .error e
      | .ok _ => .ok (none, s)
  | n + 1, i, s =>
      if !(s.entities i).valid then
        .ok (some i, s.set i { s.entities i with handle := (i : Int) })
      else new_en_loop n (i + 1) s

/-- Function `new_en`: the returned pointer and the pool after the call. -/
def new_en (s : State F) : Except Halt (Option Nat × State F) :=
  new_en_loop MAX_ENTITIES 0 s

/-- The loop of `get_all_with_type` from slot `i` on, `n` slots left. -/
def get_all_with_type_loop (s : State F) (type : EntityType) :
    Nat → Nat → daa Nat → daa Nat
  | 0, _, found => found
  | n + 1, i, found =>
      if !(s.entities i).valid then get_all_with_type_loop s type n (i + 1) found
      else if (s.entities i).type = type then
        get_all_with_type_loop s type n (i + 1) (found ++ [i])
      else get_all_with_type_loop s type n (i + 1) found

/-- Function `get_all_with_type`: the `daa<Entity*>` as the list of the
slot indices pointed to. -/
def get_all_with_type (s : State F) (type : EntityType) : daa Nat :=
  get_all_with_type_loop s type MAX_ENTITIES 0 []

/-- Function `projectile_init`. -/
def projectile_init [Zero F] [IntCast F] (rl : Raylib F) (s : State F) (pos dir : Vector2 F) :
    Except Halt (Option Nat × State F) :=
  match new_en s with
  | .error e => .error e
  | .ok (en, s1) =>
    match en_setup s1 en pos (v2of 10) with
    | .error e => .error e
    | .ok s2 =>
      match s2.write en (fun e =>
          { e with type := .ET_PROJECTILE, vel := Vector2.mul_float rl dir ((1000 : Int) : F) }) with
      | .error e => .error e
      | .ok s3 => .ok (en, s3)

/-- Function `player_init`; `data` is the address `arena_alloc<PlayerData>`
returned. The payload itself lives in the arena, outside the pool. -/
def player_init [Zero F] [IntCast F] (s : State F) (data : Nat) :
    Except Halt (Option Nat × State F) :=
  match new_en s with
  | .error e => .error e
  | .ok (en, s1) =>
    match en_setup s1 en ZERO (v2of 10) with
    | .error e => .error e
    | .ok s2 =>
      match s2.write en (fun e =>
          { e with user_data := some data, health := ((PLAYER_MAX_HEALTH : Int) : F) }) with
      | .error e => .error e
      | .ok s3 => .ok (en, s3)

/-- Function `enemy_init`. -/
def enemy_init [Zero F] [IntCast F] (s : State F) (pos : Vector2 F) :
    Except Halt (Option Nat × State F) :=
  match new_en s with
  | .error e => .error e
  | .ok (en, s1) =>
    match en_setup s1 en pos (v2of 20) with
    | .error e => .error e
    | .ok s2 =>
      match s2.write en (fun e =>
          { e with health := ((ENEMY_HEALTH : Int) : F), type := .ET_ENEMY }) with
      | .error e => .error e
      | .ok s3 => .ok (en, s3)

/-- The loop of `projectile_update` over the enemies still to visit. -/
def projectile_update_loop (rl : Raylib F) (self : Nat) : List Nat → State F → State F
  | [], s => s
  | en :: rest, s =>
      if rl.CheckCollisionRecs (en_box (s.entities self)) (en_box (s.entities en)) then
        let s1 := s.set en { s.entities en with valid := false }
        let s2 := s1.set self { s1.entities self with valid := false }
        { s2 with score := s2.score + 1 }
      else projectile_update_loop rl self rest s

/-- Function `projectile_update` on `self = &state->entities[self]`. -/
def projectile_update [Add F] [Mul F] (rl : Raylib F) (s : State F) (self : Nat) : State F :=
  let e := s.entities self
  let e1 := { e with pos := { e.pos with x := e.pos.x + e.vel.x * rl.GetFrameTime } }
  let e2 := { e1 with pos := { e1.pos with y := e1.pos.y + e1.vel.y * rl.GetFrameTime } }
  let s1 := s.set self e2
  projectile_update_loop rl self (get_all_with_type s1 .ET_ENEMY) s1

/-- Function `enemy_update` on `self = &state->entities[self]`; it reads and
writes through `state->player`. -/
def enemy_update [Sub F] [Mul F] [IntCast F] (rl : Raylib F) (s : State F) (self : Nat) :
    Except Halt (State F) :=
  match s.player with
  | none => .error .null_deref
  | some p =>
    let e := s.entities self
    let moved := rl.Vector2MoveTowards e.pos (s.entities p).pos
      (((100 : Int) : F) * rl.GetFrameTime)
    let s1 := s.set self { e with pos := moved }
    if rl.CheckCollisionRecs (en_box (s1.entities self)) (en_box (s1.entities p)) then
      let s2 := s1.set p { s1.entities p with health := (s1.entities p).health - ((1 : Int) : F) }
      .ok (s2.set self { s2.entities self with valid := false })
    else .ok s1

/-- The body of the `:entities` loop of `update_frame` at slot `i`. -/
def update_entity [Add F] [Sub F] [Mul F] [IntCast F] (rl : Raylib F) (s : State F) (i : Nat) :
    Except Halt (State F) :=
  if !(s.entities i).valid then .ok s
  else
    match (s.entities i).type with
    | .ET_NONE => .ok s
    | .ET_PROJECTILE => .ok (projectile_update rl s i)
    | .ET_ENEMY => enemy_update rl s i

/-- The pool-changing calls of the program. `player_init` stands for the
statement `state->player = player_init()` of `main`; `update i` for the
`:entities` loop body at slot `i`. -/
inductive PoolOp (F : Type)
  | new_en
  | player_init (data : Nat)
  | enemy_init (pos : Vector2 F)
  | projectile_init (pos dir : Vector2 F)
  | en_invalidate (h : Nat)
  | update (i : Nat)

/-- The init routines and the per-tick update routines. -/
def PoolOp.is_init_or_update : PoolOp F → Bool
  | .player_init _ => true
  | .enemy_init _ => true
  | .projectile_init _ _ => true
  | .update _ => true
  | _ => false

/-- One pool-changing call. -/
def PoolOp.apply [Zero F] [Add F] [Sub F] [Mul F] [IntCast F] (rl : Raylib F) (s : State F) :
    PoolOp F → Except Halt (State F)
  | .new_en =>
      match Jw6.new_en s with
      | .error e => .error e
      | .ok (_, s1) => .ok s1
  | .player_init data =>
      match Jw6.player_init s data with
      | .error e => .error e
      | .ok (en, s1) => .ok { s1 with player := en }
  | .enemy_init pos =>
      match Jw6.enemy_init s pos with
      | .error e => .error e
      | .ok (_, s1) => .ok s1
  | .projectile_init pos dir =>
      match Jw6.projectile_init rl s pos dir with
      | .error e => .error e
      | .ok (_, s1) => .ok s1
  | .en_invalidate h =>
      if h < MAX_ENTITIES then Jw6.en_invalidate s (some h) else .error .out_of_bounds
  | .update i =>
      if i < MAX_ENTITIES then update_entity rl s i else .error .out_of_bounds

/-- Run pool-changing calls in order, each under its own raylib
environment, stopping at the first halt. -/
def run_pool [Zero F] [Add F] [Sub F] [Mul F] [IntCast F] :
    List (Raylib F × PoolOp F) → State F → Except Halt (State F)
  | [], s => .ok s
  | (rl, op) :: rest, s =>
      match op.apply rl s with
      | .error e => .error e
      | .ok s1 => run_pool rest s1

/-- A pool state reachable from the zeroed pool through the pool-changing calls. -/
def Reachable [Zero F] [Add F] [Sub F] [Mul F] [IntCast F] (s : State F) : Prop :=
  ∃ ops : List (Raylib F × PoolOp F), run_pool ops State.initial = .ok s

/-- A query by type followed by later pool-changing calls: the list the
query returned, as the caller still holds it, and the pool after the calls. -/
def query_then_run [Zero F] [Add F] [Sub F] [Mul F] [IntCast F] (s : State F)
    (type : EntityType) (ops : List (Raylib F × PoolOp F)) :
    Except Halt (daa Nat × State F) :=
  let found := get_all_with_type s type
  match run_pool ops s with
  | .error e => .error e
  | .ok s1 => .ok (found, s1)

/-- Every valid object's handle equals its index in the pool array. -/
def State.handles_ok (s : State F) : Prop :=
  ∀ i, (s.entities i).valid = true → (s.entities i).handle = (i : Int)

/-- From `s` to `s1` no handle changed and no slot became valid. -/
def State.narrows (s s1 : State F) : Prop :=
  ∀ i, (s1.entities i).handle = (s.entities i).handle ∧
    ((s1.entities i).valid = true → (s.entities i).valid = true)

end Pool

/-! ### Concrete batcher inputs -/

/-- A renderer after `renderer_init` and the assignment of atlas texture 7. -/
def demo_renderer : Renderer Int Nat Nat Nat :=
  { renderer_init { layers := fun _ => { objs := [] }, atlas := 0, current_layer := 0,
                    layer_stack := [] } with atlas := 7 }

/-- Command A: what `draw_quad({1, 2, 3, 4}, 255)` records. -/
def cmd_A : DrawObj Int Nat Nat Nat :=
  { type := .DRAW_OBJ_QUAD, src := ⟨0, 0, 0, 0⟩, dest := ⟨1, 2, 3, 4⟩, tint := 255,
    line_tick := 0, tex := 0, text := "", text_size := 0, radius := 0, f := 0 }

/-- Command B: what `draw_circle({5, 6}, 9, 254)` records. -/
def cmd_B : DrawObj Int Nat Nat Nat :=
  { type := .DRAW_OBJ_CIRCLE, src := ⟨0, 0, 0, 0⟩, dest := ⟨5, 6, 0, 0⟩, tint := 254,
    line_tick := 0, tex := 0, text := "", text_size := 0, radius := 9, f := 0 }

/-- Command C: what `draw_quad_lines({7, 8, 9, 10}, 2, 253)` records. -/
def cmd_C : DrawObj Int Nat Nat Nat :=
  { type := .DRAW_QUAD_LINES, src := ⟨0, 0, 0, 0⟩, dest := ⟨7, 8, 9, 10⟩, tint := 253,
    line_tick := 2, tex := 0, text := "", text_size := 0, radius := 0, f := 0 }

/-- The batching scenario:
`push_layer(5); add(A); push_layer(2); add(B); pop_layer(); add(C); pop_layer()`. -/
def scenario_ops : List (RenderOp Int Nat Nat Nat) :=
  [.push_layer 5, .add cmd_A, .push_layer 2, .add cmd_B, .pop_layer, .add cmd_C, .pop_layer]

/-- The backend calls for B, A, C in that order. -/
def scenario_calls : List (RasterCall Int Nat Nat Nat) :=
  [.DrawCircleV ⟨5, 6⟩ 9 254,
   .DrawRectangleRec ⟨1, 2, 3, 4⟩ 255,
   .DrawRectangleLinesEx ⟨7, 8, 9, 10⟩ 2 253]

/-- A balanced sequence that records into layer index `MAX_LAYERS`:
`push_layer(1024); add(A); pop_layer()`. -/
def overflow_ops : List (RenderOp Int Nat Nat Nat) :=
  [.push_layer 1024, .add cmd_A, .pop_layer]

/-- A pop without a matching push: `add(A); pop_layer()`. -/
def underflow_ops : List (RenderOp Int Nat Nat Nat) :=
  [.add cmd_A, .pop_layer]

/-! ### Concrete pool inputs -/

/-- A pool in which every one of the `MAX_ENTITIES` slots holds a valid enemy. -/
def full_pool : State Int :=
  { entities := fun i =>
      { (Entity.zeroed : Entity Int) with
        handle := (i : Int), valid := true, type := .ET_ENEMY, health := 10 },
    player := none, score := 0 }

/-- A pool whose slots 0, 1 and 2 hold valid enemies carrying non-zero
fields; every other slot is zeroed. -/
def three_valid : State Int :=
  { entities := fun i =>
      if i < 3 then
        { (Entity.zeroed : Entity Int) with
          handle := (i : Int), valid := true, type := .ET_ENEMY, health := 10,
          pos := ⟨4, 5⟩, size := ⟨20, 20⟩, user_data := some 64 }
      else Entity.zeroed,
    player := none, score := 0 }

/-- A raylib environment over integer coordinates for a frame of zero
length: `GetFrameTime()` is 0, `Vector2MoveTowards` with `maxDistance` 0
returns its first argument, and `CheckCollisionRecs` is the overlap test of
two axis-aligned rectangles. -/
def raylib_int : Raylib Int :=
  { GetFrameTime := 0,
    CheckCollisionRecs := fun a b =>
      decide (a.x < b.x + b.width) && decide (a.x + a.width > b.x) &&
      (decide (a.y < b.y + b.height) && decide (a.y + a.height > b.y)),
    Vector2MoveTowards := fun v _ _ => v,
    Vector2Multiply := fun a b => { x := a.x * b.x, y := a.y * b.y } }

/-- Spawn the player, spawn an enemy on top of it, run the enemy's update
(it hits the player and dies). -/
def enemy_dies_ops : List (Raylib Int × PoolOp Int) :=
  [(raylib_int, .player_init 64), (raylib_int, .enemy_init ⟨0, 0⟩), (raylib_int, .update 1)]

/-- The calls of `enemy_dies_ops`, then a projectile is spawned. -/
def reuse_ops : List (Raylib Int × PoolOp Int) :=
  enemy_dies_ops ++ [(raylib_int, .projectile_init ⟨0, 0⟩ ⟨1, 0⟩)]

/-- Spawn the player and one enemy away from it. -/
def spawn_ops : List (Raylib Int × PoolOp Int) :=
  [(raylib_int, .player_init 64), (raylib_int, .enemy_init ⟨100, 100⟩)]

/-- The pool left by a run, or the zeroed pool when the run halts. -/
def pool_after (ops : List (Raylib Int × PoolOp Int)) : State Int :=
  match run_pool ops State.initial with
  | .ok s => s
  | .error _ => State.initial

/-! ## Theorems: `seconds_to_hm` -/

theorem wrap32_of_in_range (x : Int) (h0 : -2147483648 ≤ x) (h1 : x < 2147483648) :
    wrap32 x = x := by
  unfold wrap32; omega

/-- C10: for every number of seconds `n` with `0 ≤ n` inside the `int` range,
`seconds_to_hm n` is a well-formed decomposition: `h*3600 + m*60 + s = n`,
`h = n / 3600`, `0 ≤ m < 60` and `0 ≤ s < 60`. -/
theorem seconds_to_hm_decomposition (n : Int) (h0 : 0 ≤ n) (h1 : n < 2147483648) :
    (seconds_to_hm n).h * 3600 + (seconds_to_hm n).m * 60 + (seconds_to_hm n).s = n
    ∧ (seconds_to_hm n).h = n / 3600
    ∧ 0 ≤ (seconds_to_hm n).m ∧ (seconds_to_hm n).m < 60
    ∧ 0 ≤ (seconds_to_hm n).s ∧ (seconds_to_hm n).s < 60 := by
  have hh : Int.tdiv n 3600 = n / 3600 := Int.tdiv_eq_ediv h0 (by decide)
  have e0 : wrap32 (n / 3600) = n / 3600 := wrap32_of_in_range _ (by omega) (by omega)
  have e1 : wrap32 (3600 * (n / 3600)) = 3600 * (n / 3600) :=
    wrap32_of_in_range _ (by omega) (by omega)
  have e2 : wrap32 (n - 3600 * (n / 3600)) = n - 3600 * (n / 3600) :=
    wrap32_of_in_range _ (by omega) (by omega)
  have h3 : 0 ≤ n - 3600 * (n / 3600) := by omega
  have e3 : Int.tdiv (n - 3600 * (n / 3600)) 60 = (n - 3600 * (n / 3600)) / 60 :=
    Int.tdiv_eq_ediv h3 (by decide)
  have e4 : wrap32 ((n - 3600 * (n / 3600)) / 60 * 60) = (n - 3600 * (n / 3600)) / 60 * 60 :=
    wrap32_of_in_range _ (by omega) (by omega)
  have e5 : wrap32 (n - 3600 * (n / 3600) - (n - 3600 * (n / 3600)) / 60 * 60)
      = n - 3600 * (n / 3600) - (n - 3600 * (n / 3600)) / 60 * 60 :=
    wrap32_of_in_range _ (by omega) (by omega)
  simp only [seconds_to_hm]
  rw [hh, e0, e1, e2, e3, e4, e5]
  omega

/-- Witness for C10 at 3723 seconds, which the HUD shows as 01:02:03. -/
theorem seconds_to_hm_decomposition_witness :
    seconds_to_hm 3723 = { h := 1, m := 2, s := 3 } ∧
    ((seconds_to_hm 3723).h * 3600 + (seconds_to_hm 3723).m * 60 + (seconds_to_hm 3723).s = 3723
    ∧ (seconds_to_hm 3723).h = 3723 / 3600
    ∧ 0 ≤ (seconds_to_hm 3723).m ∧ (seconds_to_hm 3723).m < 60
    ∧ 0 ≤ (seconds_to_hm 3723).s ∧ (seconds_to_hm 3723).s < 60) :=
  ⟨by decide, seconds_to_hm_decomposition 3723 (by decide) (by decide)⟩

/-! ## Theorems: draw batcher -/

section BatcherProofs
variable {F Color Texture2D Font : Type}

theorem flush_layer_eq [Zero F] [IntCast F] (atlas : Texture2D)
    (objs : List (DrawObj F Color Texture2D Font))
    (calls : List (RasterCall F Color Texture2D Font)) :
    flush_layer atlas objs calls = calls ++ objs.flatMap (dispatch atlas) := by
  induction objs generalizing calls with
  | nil => simp [flush_layer]
  | cons it rest ih => simp [flush_layer, ih]

theorem flush_loop_calls [Zero F] [IntCast F] (n : Nat) :
    ∀ (i : Nat) (r : Renderer F Color Texture2D Font)
      (calls : List (RasterCall F Color Texture2D Font))
      (g : Nat → List (DrawObj F Color Texture2D Font)),
      (∀ L, i ≤ L → (r.layers L).objs = g L) →
      (flush_loop n i r calls).2
        = calls ++ (List.range' i n).flatMap (fun L => (g L).flatMap (dispatch r.atlas)) := by
  induction n with
  | zero => intro i r calls g _; simp [flush_loop]
  | succ n ih =>
    intro i r calls g hg
    simp only [flush_loop, List.range'_succ, List.flatMap_cons]
    rw [ih (i + 1) _ _ g]
    · rw [flush_layer_eq, hg i (Nat.le_refl i), List.append_assoc]
    · intro L hL
      have hne : L ≠ i := by omega
      simp only [Function.update_noteq hne]
      exact hg L (by omega)

theorem flush_loop_state [Zero F] [IntCast F] (n : Nat) :
    ∀ (i : Nat) (r : Renderer F Color Texture2D Font)
      (calls : List (RasterCall F Color Texture2D Font)),
      (flush_loop n i r calls).1.layer_stack = r.layer_stack ∧
      (flush_loop n i r calls).1.atlas = r.atlas ∧
      (flush_loop n i r calls).1.current_layer = r.current_layer ∧
      ∀ L, ((flush_loop n i r calls).1.layers L).objs
        = if i ≤ L ∧ L < i + n then [] else (r.layers L).objs := by
  induction n with
  | zero =>
    intro i r calls
    refine ⟨rfl, rfl, rfl, fun L => ?_⟩
    have hno : ¬ (i ≤ L ∧ L < i + 0) := by omega
    rw [if_neg hno]
    rfl
  | succ n ih =>
    intro i r calls
    simp only [flush_loop]
    obtain ⟨h1, h2, h3, h4⟩ := ih (i + 1)
      { r with layers := Function.update r.layers i { objs := [] } }
      (flush_layer r.atlas (r.layers i).objs calls)
    refine ⟨h1, h2, h3, fun L => ?_⟩
    rw [h4 L]
    by_cases hL : L = i
    · subst hL
      have a1 : ¬ (L + 1 ≤ L ∧ L < L + 1 + n) := by omega
      have a2 : L ≤ L ∧ L < L + (n + 1) := by omega
      simp [a1, a2]
    · by_cases hin : i + 1 ≤ L ∧ L < i + 1 + n
      · have a2 : i ≤ L ∧ L < i + (n + 1) := by omega
        simp [hin, a2]
      · have a2 : ¬ (i ≤ L ∧ L < i + (n + 1)) := by omega
        simp [hin, a2, Function.update_noteq hL]

theorem layer_commands_cons (p : Int × DrawObj F Color Texture2D Font)
    (t : List (Int × DrawObj F Color Texture2D Font)) (L : Nat) :
    layer_commands (p :: t) L
      = if p.1 = (L : Int) then p.2 :: layer_commands t L else layer_commands t L := by
  unfold layer_commands
  by_cases h : p.1 = (L : Int) <;> simp [List.filter_cons, h]

theorem depth_after_none_halts (ops : List (RenderOp F Color Texture2D Font)) :
    ∀ (r : Renderer F Color Texture2D Font) (saved : List Int),
      r.layer_stack = saved.reverse →
      0 ≤ r.current_layer → r.current_layer < (MAX_LAYERS : Int) →
      (∀ x ∈ saved, 0 ≤ x ∧ x < (MAX_LAYERS : Int)) →
      layers_in_range ops = true →
      depth_after ops saved.length = none →
      run_ops ops r = .error .pop_empty_stack := by
  induction ops with
  | nil => intro r saved _ _ _ _ _ hd; simp [depth_after] at hd
  | cons op ops ih =>
    intro r saved hst hc0 hc1 hsv hr hd
    cases op with
    | push_layer layer =>
      simp only [layers_in_range, Bool.and_eq_true, decide_eq_true_eq] at hr
      simp only [depth_after] at hd
      simp only [run_ops, RenderOp.apply]
      apply ih (r.push_layer layer) (r.current_layer :: saved)
      · simp [Renderer.push_layer, hst]
      · exact hr.1.1
      · exact hr.1.2
      · intro x hx
        rcases List.mem_cons.mp hx with h | h
        · subst h; exact ⟨hc0, hc1⟩
        · exact hsv x h
      · exact hr.2
      · simpa using hd
    | pop_layer =>
      simp only [layers_in_range] at hr
      cases saved with
      | nil =>
        simp only [List.reverse_nil] at hst
        simp [run_ops, RenderOp.apply, Renderer.pop_layer, daa.pop, hst]
      | cons top rest =>
        simp only [depth_after, List.length_cons] at hd
        have hpop : r.pop_layer
            = .ok { r with current_layer := top, layer_stack := rest.reverse } := by
          simp [Renderer.pop_layer, daa.pop, hst]
        simp only [run_ops, RenderOp.apply, hpop]
        apply ih _ rest rfl (hsv top (List.mem_cons_self _ _)).1
          (hsv top (List.mem_cons_self _ _)).2
          (fun x hx => hsv x (List.mem_cons_of_mem _ hx)) hr hd
    | add obj =>
      simp only [layers_in_range] at hr
      simp only [depth_after] at hd
      have hadd : r.add obj = .ok { r with layers := (Function.update r.layers
          r.current_layer.toNat { objs := (r.layers r.current_layer.toNat).objs ++ [obj] }) } := by
        simp [Renderer.add, hc0, hc1]
      simp only [run_ops, RenderOp.apply, hadd]
      exact ih _ saved hst hc0 hc1 hsv hr hd


theorem run_ops_tracks (ops : List (RenderOp F Color Texture2D Font)) :
    ∀ (r : Renderer F Color Texture2D Font) (saved : List Int) (d : Nat),
      r.layer_stack = saved.reverse →
      0 ≤ r.current_layer → r.current_layer < (MAX_LAYERS : Int) →
      (∀ x ∈ saved, 0 ≤ x ∧ x < (MAX_LAYERS : Int)) →
      layers_in_range ops = true →
      depth_after ops saved.length = some d →
      ∃ r1, run_ops ops r = .ok r1 ∧ r1.atlas = r.atlas ∧ r1.layer_stack.length = d ∧
        0 ≤ r1.current_layer ∧ r1.current_layer < (MAX_LAYERS : Int) ∧
        ∀ L, L < MAX_LAYERS → (r1.layers L).objs
          = (r.layers L).objs ++ layer_commands (recorded ops r.current_layer saved) L := by
  induction ops with
  | nil =>
    intro r saved d hst hc0 hc1 _ _ hd
    simp only [depth_after, Option.some.injEq] at hd
    refine ⟨r, rfl, rfl, ?_, hc0, hc1, fun L _ => ?_⟩
    · rw [hst, List.length_reverse]; exact hd
    · simp [recorded, layer_commands]
  | cons op ops ih =>
    intro r saved d hst hc0 hc1 hsv hr hd
    cases op with
    | push_layer layer =>
      simp only [layers_in_range, Bool.and_eq_true, decide_eq_true_eq] at hr
      simp only [depth_after] at hd
      simp only [run_ops, RenderOp.apply, recorded]
      have hsv1 : ∀ x ∈ r.current_layer :: saved, 0 ≤ x ∧ x < (MAX_LAYERS : Int) := by
        intro x hx
        rcases List.mem_cons.mp hx with h | h
        · subst h; exact ⟨hc0, hc1⟩
        · exact hsv x h
      exact ih (r.push_layer layer) (r.current_layer :: saved) d
        (by simp [Renderer.push_layer, hst]) hr.1.1 hr.1.2 hsv1 hr.2 (by simpa using hd)
    | pop_layer =>
      simp only [layers_in_range] at hr
      cases saved with
      | nil => simp [depth_after] at hd
      | cons top rest =>
        simp only [depth_after, List.length_cons] at hd
        have hpop : r.pop_layer
            = .ok { r with current_layer := top, layer_stack := rest.reverse } := by
          simp [Renderer.pop_layer, daa.pop, hst]
        simp only [run_ops, RenderOp.apply, hpop, recorded]
        exact ih _ rest d rfl (hsv top (List.mem_cons_self _ _)).1
          (hsv top (List.mem_cons_self _ _)).2
          (fun x hx => hsv x (List.mem_cons_of_mem _ hx)) hr hd
    | add obj =>
      simp only [layers_in_range] at hr
      simp only [depth_after] at hd
      have hadd : r.add obj = .ok { r with layers := (Function.update r.layers
          r.current_layer.toNat { objs := (r.layers r.current_layer.toNat).objs ++ [obj] }) } := by
        simp [Renderer.add, hc0, hc1]
      simp only [run_ops, RenderOp.apply, hadd, recorded]
      obtain ⟨r1, h1, h2, h3, h4, h5, h6⟩ := ih { r with layers := (Function.update r.layers
          r.current_layer.toNat { objs := (r.layers r.current_layer.toNat).objs ++ [obj] }) }
        saved d hst hc0 hc1 hsv hr hd
      refine ⟨r1, h1, h2, h3, h4, h5, fun L hL => ?_⟩
      rw [h6 L hL, layer_commands_cons]
      by_cases hcur : r.current_layer = (L : Int)
      · have hL2 : r.current_layer.toNat = L := by omega
        rw [if_pos hcur, hL2]
        simp only [Function.update_same, List.append_assoc, List.singleton_append]
      · have hL2 : L ≠ r.current_layer.toNat := by omega
        rw [if_neg hcur]
        simp only [Function.update_noteq hL2]

theorem recorded_layers_in_range (ops : List (RenderOp F Color Texture2D Font)) :
    ∀ (cur : Int) (saved : List Int),
      0 ≤ cur → cur < (MAX_LAYERS : Int) →
      (∀ x ∈ saved, 0 ≤ x ∧ x < (MAX_LAYERS : Int)) →
      layers_in_range ops = true →
      ∀ p ∈ recorded ops cur saved, 0 ≤ p.1 ∧ p.1 < (MAX_LAYERS : Int) := by
  induction ops with
  | nil => intro cur saved _ _ _ _ p hp; simp [recorded] at hp
  | cons op ops ih =>
    intro cur saved hc0 hc1 hsv hr p hp
    cases op with
    | push_layer layer =>
      simp only [layers_in_range, Bool.and_eq_true, decide_eq_true_eq] at hr
      simp only [recorded] at hp
      refine ih layer (cur :: saved) hr.1.1 hr.1.2 ?_ hr.2 p hp
      intro x hx
      rcases List.mem_cons.mp hx with h | h
      · subst h; exact ⟨hc0, hc1⟩
      · exact hsv x h
    | pop_layer =>
      simp only [layers_in_range] at hr
      cases saved with
      | nil => simp [recorded] at hp
      | cons top rest =>
        simp only [recorded] at hp
        exact ih top rest (hsv top (List.mem_cons_self _ _)).1
          (hsv top (List.mem_cons_self _ _)).2
          (fun x hx => hsv x (List.mem_cons_of_mem _ hx)) hr p hp
    | add obj =>
      simp only [layers_in_range] at hr
      simp only [recorded] at hp
      rcases List.mem_cons.mp hp with h | h
      · subst h; exact ⟨hc0, hc1⟩
      · exact ih cur saved hc0 hc1 hsv hr p h

theorem recorded_eq_added (ops : List (RenderOp F Color Texture2D Font)) :
    ∀ (cur : Int) (saved : List Int) (d : Nat),
      depth_after ops saved.length = some d →
      (recorded ops cur saved).map (fun p => p.2) = added ops := by
  induction ops with
  | nil => intro cur saved d _; rfl
  | cons op ops ih =>
    intro cur saved d hd
    cases op with
    | push_layer layer =>
      simp only [depth_after] at hd
      simp only [recorded, added]
      exact ih layer (cur :: saved) d (by simpa using hd)
    | pop_layer =>
      cases saved with
      | nil => simp [depth_after] at hd
      | cons top rest =>
        simp only [depth_after, List.length_cons] at hd
        simp only [recorded, added]
        exact ih top rest d hd
    | add obj =>
      simp only [depth_after] at hd
      simp only [recorded, added, List.map_cons]
      rw [ih cur saved d hd]

theorem flatMap_insert_perm {α : Type} (a : α) (k : Nat) (f : Nat → List α) :
    ∀ (ls : List Nat), ls.Nodup → k ∈ ls →
      (ls.flatMap (fun L => if L = k then a :: f L else f L)).Perm (a :: ls.flatMap f) := by
  intro ls
  induction ls with
  | nil => intro _ hk; simp at hk
  | cons x xs ih =>
    intro hnd hk
    have hnd1 := List.nodup_cons.mp hnd
    simp only [List.flatMap_cons]
    by_cases hx : x = k
    · subst hx
      have hsame : xs.flatMap (fun L => if L = x then a :: f L else f L) = xs.flatMap f := by
        have hfun : ∀ (ys : List Nat), x ∉ ys →
            ys.flatMap (fun L => if L = x then a :: f L else f L) = ys.flatMap f := by
          intro ys
          induction ys with
          | nil => intro _; rfl
          | cons y ys ihy =>
            intro hy
            have hy1 : y ≠ x := fun e => hy (e ▸ List.mem_cons_self _ _)
            have hy2 : x ∉ ys := fun e => hy (List.mem_cons_of_mem _ e)
            simp only [List.flatMap_cons, if_neg hy1, ihy hy2]
        exact hfun xs hnd1.1
      simp [hsame]
    · have hk1 : k ∈ xs := by
        rcases List.mem_cons.mp hk with h | h
        · exact absurd h.symm hx
        · exact h
      simp only [if_neg hx]
      have h1 := ih hnd1.2 hk1
      exact (List.Perm.append_left (f x) h1).trans List.perm_middle

theorem flatMap_layer_commands_perm (n : Nat)
    (t : List (Int × DrawObj F Color Texture2D Font)) :
    (∀ p ∈ t, 0 ≤ p.1 ∧ p.1 < (n : Int)) →
    ((List.range n).flatMap (layer_commands t)).Perm (t.map (fun p => p.2)) := by
  induction t with
  | nil =>
    intro _
    have hnil : (List.range n).flatMap
        (layer_commands ([] : List (Int × DrawObj F Color Texture2D Font))) = [] := by
      rw [List.flatMap_eq_nil_iff]
      intro x _
      rfl
    rw [hnil]
    exact List.Perm.refl _
  | cons p t ih =>
    intro hin
    have hp := hin p (List.mem_cons_self _ _)
    have ht := ih (fun q hq => hin q (List.mem_cons_of_mem _ hq))
    have hfun : layer_commands (p :: t)
        = fun L => if L = p.1.toNat then p.2 :: layer_commands t L else layer_commands t L := by
      funext L
      rw [layer_commands_cons]
      by_cases h : p.1 = (L : Int)
      · have h2 : L = p.1.toNat := by omega
        rw [if_pos h, if_pos h2]
      · have h2 : ¬ L = p.1.toNat := by omega
        rw [if_neg h, if_neg h2]
    rw [hfun, List.map_cons]
    have hmem : p.1.toNat ∈ List.range n := by
      rw [List.mem_range]; omega
    exact (flatMap_insert_perm p.2 p.1.toNat (layer_commands t) (List.range n)
      (List.nodup_range n) hmem).trans (List.Perm.cons _ ht)


theorem flatMap_congr_on {α β : Type} (f g : α → List β) :
    ∀ (l : List α), (∀ x ∈ l, f x = g x) → l.flatMap f = l.flatMap g := by
  intro l
  induction l with
  | nil => intro _; rfl
  | cons x xs ih =>
    intro h
    simp only [List.flatMap_cons]
    rw [h x (List.mem_cons_self _ _), ih (fun y hy => h y (List.mem_cons_of_mem _ hy))]

theorem renderer_init_fresh (r : Renderer F Color Texture2D Font) (atlas : Texture2D) :
    Renderer.fresh { renderer_init r with atlas := atlas } := by
  refine ⟨fun i _ => rfl, rfl, ?_, ?_⟩
  · exact Int.le_refl 0
  · show (0 : Int) < (MAX_LAYERS : Int)
    decide

theorem flush_renderer_calls [Zero F] [IntCast F] (r : Renderer F Color Texture2D Font)
    (g : Nat → List (DrawObj F Color Texture2D Font))
    (hg : ∀ L, L < MAX_LAYERS → (r.layers L).objs = g L) :
    (flush_renderer r).1 = ((List.range MAX_LAYERS).flatMap g).flatMap (dispatch r.atlas) := by
  have h := flush_loop_calls MAX_LAYERS 0 r [] (fun L => (r.layers L).objs) (fun _ _ => rfl)
  simp only [flush_renderer]
  rw [h, List.nil_append, List.flatMap_assoc, ← List.range_eq_range']
  apply flatMap_congr_on
  intro L hL
  beta_reduce
  rw [hg L (List.mem_range.mp hL)]

theorem flush_renderer_result [Zero F] [IntCast F] (r : Renderer F Color Texture2D Font) :
    (r.layer_stack = [] →
      ∃ r1, (flush_renderer r).2 = .ok r1 ∧ r1.layer_stack = [] ∧ r1.atlas = r.atlas ∧
        r1.current_layer = r.current_layer ∧ ∀ L, L < MAX_LAYERS → (r1.layers L).objs = []) ∧
    (r.layer_stack ≠ [] → (flush_renderer r).2 = .error .unclosed_layers) := by
  obtain ⟨h1, h2, h3, h4⟩ := flush_loop_state MAX_LAYERS 0 r []
  constructor
  · intro hs
    refine ⟨(flush_loop MAX_LAYERS 0 r []).1, ?_, by rw [h1, hs], h2, h3, fun L hL => ?_⟩
    · simp [flush_renderer, assert, h1, hs]
    · rw [h4 L]
      have hin : 0 ≤ L ∧ L < 0 + MAX_LAYERS := by omega
      rw [if_pos hin]
  · intro hs
    have hlen : ¬ r.layer_stack.length = 0 := by
      intro h0
      exact hs (List.length_eq_zero.mp h0)
    simp [flush_renderer, assert, h1, hlen]

/-- C1: on a renderer that is fresh (as after `renderer_init`), for every
sequence of `push_layer` / `pop_layer` / `add` calls that is balanced and
pushes only layer indices in `0..MAX_LAYERS-1`, the recording pass returns and
the backend calls of `flush_renderer` are the dispatch, in order, of the
concatenation over layers in ascending index order of each layer's commands in
the order they were added. -/
theorem flush_in_layer_order [Zero F] [IntCast F] (r0 : Renderer F Color Texture2D Font)
    (ops : List (RenderOp F Color Texture2D Font)) (h0 : r0.fresh)
    (hr : layers_in_range ops = true) (hb : balanced ops = true) :
    ∃ r1, record_and_flush ops r0
      = ((by_layer (recorded ops r0.current_layer [])).flatMap (dispatch r0.atlas), .ok r1) := by
  obtain ⟨hl, hs, hc0, hc1⟩ := h0
  have hd : depth_after ops ([] : List Int).length = some 0 := by
    simpa [balanced] using hb
  obtain ⟨r1, e1, e2, e3, _, _, e6⟩ :=
    run_ops_tracks ops r0 [] 0 (by simp [hs]) hc0 hc1 (by simp) hr hd
  have hst : r1.layer_stack = [] := List.length_eq_zero.mp e3
  obtain ⟨r2, f1, _⟩ := (flush_renderer_result r1).1 hst
  refine ⟨r2, ?_⟩
  have hcalls := flush_renderer_calls r1 (layer_commands (recorded ops r0.current_layer []))
    (fun L hL => by rw [e6 L hL, hl L hL, List.nil_append])
  simp only [record_and_flush, e1]
  rw [Prod.ext_iff]
  exact ⟨by rw [hcalls, e2, by_layer], f1⟩

/-- Witness for C1, the batching scenario of the specification: the calls
made are those for B, then A, then C. -/
theorem flush_in_layer_order_witness :
    ∃ r1, record_and_flush scenario_ops demo_renderer = (scenario_calls, .ok r1) := by
  have h := flush_in_layer_order demo_renderer scenario_ops (renderer_init_fresh _ 7)
    (by decide) (by decide)
  have e : (by_layer (recorded scenario_ops demo_renderer.current_layer [])).flatMap
      (dispatch demo_renderer.atlas) = scenario_calls := by decide!
  rw [e] at h
  exact h


theorem dispatch_length_of_ne_NONE [Zero F] [IntCast F] (atlas : Texture2D)
    (it : DrawObj F Color Texture2D Font) (h : it.type ≠ .NONE) :
    (dispatch atlas it).length = 1 := by
  unfold dispatch
  cases ht : it.type with
  | NONE => exact absurd ht h
  | _ => rfl

theorem flatMap_length_of_singletons {α β : Type} (f : α → List β) :
    ∀ (l : List α), (∀ x ∈ l, (f x).length = 1) → (l.flatMap f).length = l.length := by
  intro l
  induction l with
  | nil => intro _; rfl
  | cons x xs ih =>
    intro h
    simp only [List.flatMap_cons, List.length_append, List.length_cons]
    rw [h x (List.mem_cons_self _ _), ih (fun y hy => h y (List.mem_cons_of_mem _ hy))]
    omega

/-- C6, the claim as stated fails: `push_layer(1024); add(A); pop_layer()` is
balanced and starts from an initialised renderer with an empty layer stack,
yet `add` indexes `layers[1024]`, one past the array, so the pass does not
reach a successful flush and A is never dispatched. -/
theorem balanced_out_of_range_not_flushed :
    demo_renderer.layer_stack = [] ∧ balanced overflow_ops = true ∧
    added overflow_ops = [cmd_A] ∧
    record_and_flush overflow_ops demo_renderer = ([], .error .out_of_bounds) := by
  refine ⟨rfl, by decide, by decide, ?_⟩
  rfl

/-- C6 (amended): for every sequence of `push_layer` / `pop_layer` / `add`
calls whose pushed layer indices all lie in `0..MAX_LAYERS-1`, issued on a
fresh renderer (layers and layer stack empty): if the sequence is balanced,
the pass returns, the backend calls are the dispatch of a rearrangement of the
recorded commands in which each occurs exactly once (one call per command
when no command carries the tag `NONE`, for which the switch makes no call),
and every layer is left with a command count of zero (the renderer is fresh
again); if it is not balanced, the pass halts with a layer-imbalance
condition. -/
theorem flush_balanced_or_fatal [Zero F] [IntCast F] (r0 : Renderer F Color Texture2D Font)
    (ops : List (RenderOp F Color Texture2D Font)) (h0 : r0.fresh)
    (hr : layers_in_range ops = true) :
    (balanced ops = true →
      ∃ (order : List (DrawObj F Color Texture2D Font)) (r1 : Renderer F Color Texture2D Font),
        record_and_flush ops r0 = (order.flatMap (dispatch r0.atlas), .ok r1) ∧
        order.Perm (added ops) ∧
        ((∀ o ∈ added ops, o.type ≠ .NONE) →
          (record_and_flush ops r0).1.length = (added ops).length) ∧
        (∀ L, L < MAX_LAYERS → (r1.layers L).objs.length = 0) ∧ r1.fresh) ∧
    (balanced ops = false →
      ∃ e, (record_and_flush ops r0).2 = .error e ∧ e.is_layer_imbalance = true) := by
  obtain ⟨hl, hs, hc0, hc1⟩ := h0
  have hst0 : r0.layer_stack = ([] : List Int).reverse := by simp [hs]
  have hsv0 : ∀ x ∈ ([] : List Int), 0 ≤ x ∧ x < (MAX_LAYERS : Int) := by simp
  constructor
  · intro hb
    have hd : depth_after ops ([] : List Int).length = some 0 := by
      simpa [balanced] using hb
    obtain ⟨r1, e1, e2, e3, e4, e5, e6⟩ := run_ops_tracks ops r0 [] 0 hst0 hc0 hc1 hsv0 hr hd
    have hst : r1.layer_stack = [] := List.length_eq_zero.mp e3
    obtain ⟨r2, f1, f2, f3, f4, f5⟩ := (flush_renderer_result r1).1 hst
    have hcalls := flush_renderer_calls r1 (layer_commands (recorded ops r0.current_layer []))
      (fun L hL => by rw [e6 L hL, hl L hL, List.nil_append])
    have hp := flatMap_layer_commands_perm MAX_LAYERS (recorded ops r0.current_layer [])
      (recorded_layers_in_range ops r0.current_layer [] hc0 hc1 hsv0 hr)
    rw [recorded_eq_added ops r0.current_layer [] 0 hd] at hp
    have hres : record_and_flush ops r0
        = ((by_layer (recorded ops r0.current_layer [])).flatMap (dispatch r0.atlas),
            .ok r2) := by
      simp only [record_and_flush, e1]
      rw [Prod.ext_iff]
      exact ⟨by rw [hcalls, e2, by_layer], f1⟩
    refine ⟨by_layer (recorded ops r0.current_layer []), r2, hres, ?_, ?_, ?_, ?_⟩
    · unfold by_layer
      exact hp
    · intro hne
      rw [hres]
      dsimp only
      rw [flatMap_length_of_singletons]
      · unfold by_layer
        exact hp.length_eq
      · intro o ho
        apply dispatch_length_of_ne_NONE
        apply hne
        unfold by_layer at ho
        exact hp.mem_iff.mp ho
    · intro L hL
      rw [f5 L hL]
      rfl
    · exact ⟨f5, f2, by rw [f4]; exact e4, by rw [f4]; exact e5⟩
  · intro hb
    cases hdep : depth_after ops ([] : List Int).length with
    | none =>
      have e1 := depth_after_none_halts ops r0 [] hst0 hc0 hc1 hsv0 hr hdep
      exact ⟨.pop_empty_stack, by simp [record_and_flush, e1], rfl⟩
    | some d =>
      obtain ⟨r1, e1, _, e3, _, _, _⟩ := run_ops_tracks ops r0 [] d hst0 hc0 hc1 hsv0 hr hdep
      have hd0 : d ≠ 0 := by
        intro h
        subst h
        have hbal : balanced ops = true := by
          simp only [balanced]
          simp only [List.length_nil] at hdep
          rw [hdep]
          rfl
        rw [hbal] at hb
        exact Bool.noConfusion hb
      have hne : r1.layer_stack ≠ [] := by
        intro h
        rw [h] at e3
        exact hd0 e3.symm
      refine ⟨.unclosed_layers, ?_, rfl⟩
      simp only [record_and_flush, e1]
      exact (flush_renderer_result r1).2 hne

/-- Witness for C6 (amended): the balanced batching scenario flushes with the
calls for B, A, C, and the unbalanced `add(A); pop_layer()` halts with the
pop on the empty stack. -/
theorem flush_balanced_or_fatal_witness :
    (balanced scenario_ops = true ∧ balanced underflow_ops = false) ∧
    (∃ (order : List (DrawObj Int Nat Nat Nat)) (r1 : Renderer Int Nat Nat Nat),
        record_and_flush scenario_ops demo_renderer
          = (order.flatMap (dispatch demo_renderer.atlas), .ok r1) ∧
        order.Perm (added scenario_ops) ∧
        ((∀ o ∈ added scenario_ops, o.type ≠ .NONE) →
          (record_and_flush scenario_ops demo_renderer).1.length
            = (added scenario_ops).length) ∧
        (∀ L, L < MAX_LAYERS → (r1.layers L).objs.length = 0) ∧ r1.fresh) ∧
    (∃ e, (record_and_flush underflow_ops demo_renderer).2 = .error e ∧
        e.is_layer_imbalance = true) :=
  ⟨⟨by decide, by decide⟩,
   (flush_balanced_or_fatal demo_renderer scenario_ops (renderer_init_fresh _ 7)
      (by decide)).1 (by decide),
   (flush_balanced_or_fatal demo_renderer underflow_ops (renderer_init_fresh _ 7)
      (by decide)).2 (by decide)⟩

end BatcherProofs

/-! ## Theorems: object pool -/

section PoolProofs
variable {F : Type}

@[simp] theorem State.set_entities_same (s : State F) (i : Nat) (e : Entity F) :
    (s.set i e).entities i = e := by
  simp [State.set]

theorem State.set_entities_ne (s : State F) (i j : Nat) (e : Entity F) (h : j ≠ i) :
    (s.set i e).entities j = s.entities j := by
  simp [State.set, Function.update_noteq h]

/-- What the loop of `new_en` does from slot `i` with `n` slots left: it
returns the lowest invalid slot of the window with its handle set, or, when
the whole window is valid, the null pointer and the pool untouched. -/
theorem new_en_loop_cases (n : Nat) :
    ∀ (i : Nat) (s : State F),
      (∃ k, i ≤ k ∧ k < i + n ∧ (∀ j, i ≤ j → j < k → (s.entities j).valid = true) ∧
          (s.entities k).valid = false ∧
          new_en_loop n i s = .ok (some k, s.set k { s.entities k with handle := (k : Int) })) ∨
      ((∀ j, i ≤ j → j < i + n → (s.entities j).valid = true) ∧
          new_en_loop n i s = .ok (none, s)) := by
  induction n with
  | zero =>
    intro i s
    right
    refine ⟨fun j h1 h2 => ?_, rfl⟩
    omega
  | succ n ih =>
    intro i s
    cases hv : (s.entities i).valid with
    | false =>
      left
      refine ⟨i, Nat.le_refl i, by omega, fun j h1 h2 => ?_, hv, ?_⟩
      · omega
      · simp [new_en_loop, hv]
    | true =>
      have hstep : new_en_loop (n + 1) i s = new_en_loop n (i + 1) s := by
        simp [new_en_loop, hv]
      rcases ih (i + 1) s with ⟨k, h1, h2, h3, h4, h5⟩ | ⟨h1, h2⟩
      · left
        refine ⟨k, by omega, by omega, fun j hj1 hj2 => ?_, h4, by rw [hstep, h5]⟩
        by_cases hji : j = i
        · subst hji; exact hv
        · exact h3 j (by omega) hj2
      · right
        refine ⟨fun j hj1 hj2 => ?_, by rw [hstep, h2]⟩
        by_cases hji : j = i
        · subst hji; exact hv
        · exact h1 j (by omega) (by omega)

theorem new_en_cases (s : State F) :
    (∃ k, k < MAX_ENTITIES ∧ (∀ j, j < k → (s.entities j).valid = true) ∧
        (s.entities k).valid = false ∧
        new_en s = .ok (some k, s.set k { s.entities k with handle := (k : Int) })) ∨
    ((∀ j, j < MAX_ENTITIES → (s.entities j).valid = true) ∧ new_en s = .ok (none, s)) := by
  rcases new_en_loop_cases MAX_ENTITIES 0 s with ⟨k, _, h2, h3, h4, h5⟩ | ⟨h1, h2⟩
  · left
    exact ⟨k, by omega, fun j hj => h3 j (Nat.zero_le j) hj, h4, h5⟩
  · right
    exact ⟨fun j hj => h1 j (Nat.zero_le j) (by omega), h2⟩

/-- With an invalid slot in the pool, `new_en` returns the lowest one. -/
theorem new_en_of_invalid (s : State F) (i : Nat) (hi : i < MAX_ENTITIES)
    (hinv : (s.entities i).valid = false) :
    ∃ k, k ≤ i ∧ (∀ j, j < k → (s.entities j).valid = true) ∧
      (s.entities k).valid = false ∧
      new_en s = .ok (some k, s.set k { s.entities k with handle := (k : Int) }) := by
  rcases new_en_cases s with ⟨k, _, h2, h3, h4⟩ | ⟨h1, _⟩
  · refine ⟨k, ?_, h2, h3, h4⟩
    by_contra hlt
    have hik : i < k := by omega
    rw [h2 i hik] at hinv
    exact Bool.noConfusion hinv
  · rw [h1 i hi] at hinv
    exact Bool.noConfusion hinv

/-- A slot returned by `new_en` was invalid, and is the lowest such. -/
theorem new_en_returns_invalid (s s1 : State F) (k : Nat)
    (h : new_en s = .ok (some k, s1)) :
    k < MAX_ENTITIES ∧ (s.entities k).valid = false ∧
    (∀ j, j < k → (s.entities j).valid = true) ∧
    s1 = s.set k { s.entities k with handle := (k : Int) } := by
  rcases new_en_cases s with ⟨k1, h1, h2, h3, h4⟩ | ⟨_, h2⟩
  · rw [h4] at h
    simp only [Except.ok.injEq, Prod.mk.injEq, Option.some.injEq] at h
    obtain ⟨hk, hs⟩ := h
    subst hk
    exact ⟨h1, h3, h2, hs.symm⟩
  · rw [h2] at h
    simp at h


theorem new_en_full (s : State F) (h : ∀ j, j < MAX_ENTITIES → (s.entities j).valid = true) :
    new_en s = .ok (none, s) := by
  rcases new_en_cases s with ⟨k, h1, _, h3, _⟩ | ⟨_, h2⟩
  · rw [h k h1] at h3
    exact Bool.noConfusion h3
  · exact h2

theorem projectile_init_of_new_en [Zero F] [IntCast F] (rl : Raylib F) (s : State F)
    (pos dir : Vector2 F) (k : Nat)
    (hnew : new_en s = .ok (some k, s.set k { s.entities k with handle := (k : Int) })) :
    ∃ s3, projectile_init rl s pos dir = .ok (some k, s3) ∧
      (s3.entities k).valid = true ∧ (s3.entities k).handle = (k : Int) ∧
      (∀ j, j ≠ k → s3.entities j = s.entities j) ∧ s3.player = s.player := by
  refine ⟨_, by simp only [projectile_init, hnew, en_setup, State.write]; rfl, ?_, ?_, ?_, ?_⟩
  · simp
  · simp
  · intro j hj
    simp [State.set_entities_ne _ _ _ _ hj]
  · rfl

theorem player_init_of_new_en [Zero F] [IntCast F] (s : State F) (data : Nat) (k : Nat)
    (hnew : new_en s = .ok (some k, s.set k { s.entities k with handle := (k : Int) })) :
    ∃ s3, player_init s data = .ok (some k, s3) ∧
      (s3.entities k).valid = true ∧ (s3.entities k).handle = (k : Int) ∧
      (∀ j, j ≠ k → s3.entities j = s.entities j) ∧ s3.player = s.player := by
  refine ⟨_, by simp only [player_init, hnew, en_setup, State.write]; rfl, ?_, ?_, ?_, ?_⟩
  · simp
  · simp
  · intro j hj
    simp [State.set_entities_ne _ _ _ _ hj]
  · rfl

theorem enemy_init_of_new_en [Zero F] [IntCast F] (s : State F) (pos : Vector2 F) (k : Nat)
    (hnew : new_en s = .ok (some k, s.set k { s.entities k with handle := (k : Int) })) :
    ∃ s3, enemy_init s pos = .ok (some k, s3) ∧
      (s3.entities k).valid = true ∧ (s3.entities k).handle = (k : Int) ∧
      (∀ j, j ≠ k → s3.entities j = s.entities j) ∧ s3.player = s.player := by
  refine ⟨_, by simp only [enemy_init, hnew, en_setup, State.write]; rfl, ?_, ?_, ?_, ?_⟩
  · simp
  · simp
  · intro j hj
    simp [State.set_entities_ne _ _ _ _ hj]
  · rfl

/-- C2, the claim as stated fails: on the zeroed pool `new_en` returns
slot 0 with its handle set but leaves `valid` false, so a second `new_en`
returns slot 0 again, not a distinct slot. -/
theorem new_en_leaves_slot_invalid :
    ∃ s1 s2, new_en (State.initial : State Int) = .ok (some 0, s1) ∧
      (s1.entities 0).valid = false ∧ new_en s1 = .ok (some 0, s2) :=
  ⟨_, _, rfl, rfl, rfl⟩

/-- C2 (amended): for every pool state with an invalid slot, `new_en` returns
the lowest-index slot whose valid flag is false and sets that slot's handle to
its index, changing nothing else and leaving the slot invalid; the `en_setup`
call that follows in every init routine marks the slot valid, after which an
allocation returns a different (higher) slot. -/
theorem new_en_lowest_invalid [Zero F] (s : State F) (i : Nat) (hi : i < MAX_ENTITIES)
    (hinv : (s.entities i).valid = false) :
    ∃ k s1, new_en s = .ok (some k, s1) ∧ k ≤ i ∧
      (s.entities k).valid = false ∧ (∀ j, j < k → (s.entities j).valid = true) ∧
      s1.entities k = { s.entities k with handle := (k : Int) } ∧
      (∀ j, j ≠ k → s1.entities j = s.entities j) ∧
      ∀ pos size, ∃ s2, en_setup s1 (some k) pos size = .ok s2 ∧
        (s2.entities k).valid = true ∧ (s2.entities k).handle = (k : Int) ∧
        ∀ k2 s3, new_en s2 = .ok (some k2, s3) → k < k2 := by
  obtain ⟨k, h1, h2, h3, h4⟩ := new_en_of_invalid s i hi hinv
  refine ⟨k, _, h4, h1, h3, h2, by simp, fun j hj => State.set_entities_ne _ _ _ _ hj, ?_⟩
  intro pos size
  refine ⟨_, rfl, by simp, by simp, ?_⟩
  intro k2 s3 hk2
  obtain ⟨_, g2, g3, _⟩ := new_en_returns_invalid _ _ _ hk2
  by_contra hle
  by_cases hkk : k2 = k
  · subst hkk
    simp at g2
  · have hlt : k2 < k := by omega
    have hv := h2 k2 hlt
    rw [State.set_entities_ne _ _ _ _ hkk, State.set_entities_ne _ _ _ _ hkk, hv] at g2
    exact Bool.noConfusion g2

/-- Witness for C2 (amended): on the zeroed pool the allocation returns
slot 0, and three init routines in a row get the handles 0, 1 and 2. -/
theorem new_en_lowest_invalid_witness :
    (∃ s1 s2 s3, player_init (State.initial : State Int) 64 = .ok (some 0, s1) ∧
      enemy_init s1 ⟨100, 100⟩ = .ok (some 1, s2) ∧
      projectile_init raylib_int s2 ⟨0, 0⟩ ⟨1, 0⟩ = .ok (some 2, s3)) ∧
    (∃ k s1, new_en (State.initial : State Int) = .ok (some k, s1) ∧ k ≤ 0 ∧
      ((State.initial : State Int).entities k).valid = false ∧
      (∀ j, j < k → ((State.initial : State Int).entities j).valid = true) ∧
      s1.entities k = { (State.initial : State Int).entities k with handle := (k : Int) } ∧
      (∀ j, j ≠ k → s1.entities j = (State.initial : State Int).entities j) ∧
      ∀ pos size, ∃ s2, en_setup s1 (some k) pos size = .ok s2 ∧
        (s2.entities k).valid = true ∧ (s2.entities k).handle = (k : Int) ∧
        ∀ k2 s3, new_en s2 = .ok (some k2, s3) → k < k2) :=
  ⟨⟨_, _, _, rfl, rfl, rfl⟩,
   new_en_lowest_invalid (State.initial : State Int) 0 (by decide) rfl⟩


/-- C3, what the code does: on every pool whose `MAX_ENTITIES` slots are all
valid, `new_en` does not halt. Its assertion `assert(true && "Ran out of
entities")` holds, and it returns the null pointer with the pool unchanged. -/
theorem new_en_full_pool_returns_null (s : State F)
    (hfull : ∀ j, j < MAX_ENTITIES → (s.entities j).valid = true) :
    new_en s = .ok (none, s) ∧ new_en s ≠ .error .ran_out_of_entities := by
  have h := new_en_full s hfull
  refine ⟨h, ?_⟩
  rw [h]
  intro hc
  exact Except.noConfusion hc

/-- Witness for C3 on the pool of 2046 valid enemies; the init routine that
called `new_en` then writes through the null pointer. -/
theorem new_en_full_pool_returns_null_witness :
    enemy_init full_pool ⟨0, 0⟩ = .error .null_deref ∧
    (new_en full_pool = .ok (none, full_pool) ∧
      new_en full_pool ≠ .error .ran_out_of_entities) := by
  have h := new_en_full_pool_returns_null full_pool (fun _ _ => rfl)
  refine ⟨?_, h⟩
  simp only [enemy_init, h.1, en_setup, State.write]

/-- C4: for every pool state and slot index `h`, `en_invalidate` on slot `h`
leaves that record all-zero (valid false, type `ET_NONE`, `user_data` null,
no props, zero scalars and vectors) and every other slot unchanged; and when
all slots below `h` are valid, the next `new_en` returns slot `h`, whose
record is all-zero except for the handle, which is `h`. -/
theorem en_invalidate_then_new_en [Zero F] (s : State F) (h : Nat) (hh : h < MAX_ENTITIES) :
    ∃ s1, en_invalidate s (some h) = .ok s1 ∧
      s1.entities h = Entity.zeroed ∧
      (∀ j, j ≠ h → s1.entities j = s.entities j) ∧
      ((∀ j, j < h → (s.entities j).valid = true) →
        ∃ s2, new_en s1 = .ok (some h, s2) ∧
          s2.entities h = { (Entity.zeroed : Entity F) with handle := (h : Int) } ∧
          ∀ j, j ≠ h → s2.entities j = s.entities j) := by
  refine ⟨s.set h Entity.zeroed, rfl, by simp, fun j hj => State.set_entities_ne _ _ _ _ hj, ?_⟩
  intro hbelow
  have hinv : ((s.set h Entity.zeroed).entities h).valid = false := by
    simp [Entity.zeroed]
  obtain ⟨k, h1, h2, _, h4⟩ := new_en_of_invalid (s.set h Entity.zeroed) h hh hinv
  have hk : k = h := by
    by_contra hne
    have hlt : k < h := by omega
    obtain ⟨_, g2, _, _⟩ := new_en_returns_invalid _ _ _ h4
    rw [State.set_entities_ne _ _ _ _ hne, hbelow k hlt] at g2
    exact Bool.noConfusion g2
  subst hk
  refine ⟨_, h4, by simp, fun j hj => ?_⟩
  rw [State.set_entities_ne _ _ _ _ hj, State.set_entities_ne _ _ _ _ hj]

/-- Witness for C4, the pool scenario of the specification: slots 0, 1, 2
valid, `invalidate(1)`, and the next allocation returns handle 1 with every
other field zero. -/
theorem en_invalidate_then_new_en_witness :
    (1 < MAX_ENTITIES ∧ ∀ j, j < 1 → (three_valid.entities j).valid = true) ∧
    ∃ s1, en_invalidate three_valid (some 1) = .ok s1 ∧
      s1.entities 1 = Entity.zeroed ∧
      (∀ j, j ≠ 1 → s1.entities j = three_valid.entities j) ∧
      ((∀ j, j < 1 → (three_valid.entities j).valid = true) →
        ∃ s2, new_en s1 = .ok (some 1, s2) ∧
          s2.entities 1 = { (Entity.zeroed : Entity Int) with handle := ((1 : Nat) : Int) } ∧
          ∀ j, j ≠ 1 → s2.entities j = three_valid.entities j) :=
  ⟨⟨by decide, by decide⟩, en_invalidate_then_new_en three_valid 1 (by decide)⟩

/-- C8: for every pool state, a slot returned by `new_en` had `valid == false`
at the time of the call; whenever the pool has an invalid slot, each init
routine (`new_en` followed by `en_setup`) returns a slot that was invalid
before the call and is valid after it, so its index differs from that of
every object valid before the call, and the records of those objects are
unchanged; on a pool without an invalid slot no init routine returns. -/
theorem init_never_reuses_valid_slot [Zero F] [IntCast F] (rl : Raylib F) (s : State F)
    (pos dir : Vector2 F) (data : Nat) :
    (∀ k s1, new_en s = .ok (some k, s1) → k < MAX_ENTITIES ∧ (s.entities k).valid = false) ∧
    ((∃ i, i < MAX_ENTITIES ∧ (s.entities i).valid = false) →
      (∃ k s1, projectile_init rl s pos dir = .ok (some k, s1) ∧
        (s.entities k).valid = false ∧ (s1.entities k).valid = true ∧
        ∀ j, (s.entities j).valid = true → j ≠ k ∧ s1.entities j = s.entities j) ∧
      (∃ k s1, player_init s data = .ok (some k, s1) ∧
        (s.entities k).valid = false ∧ (s1.entities k).valid = true ∧
        ∀ j, (s.entities j).valid = true → j ≠ k ∧ s1.entities j = s.entities j) ∧
      (∃ k s1, enemy_init s pos = .ok (some k, s1) ∧
        (s.entities k).valid = false ∧ (s1.entities k).valid = true ∧
        ∀ j, (s.entities j).valid = true → j ≠ k ∧ s1.entities j = s.entities j)) ∧
    ((∀ j, j < MAX_ENTITIES → (s.entities j).valid = true) →
      projectile_init rl s pos dir = .error .null_deref ∧
      player_init s data = .error .null_deref ∧
      enemy_init s pos = .error .null_deref) := by
  refine ⟨fun k1 s1 hk1 => ?_, ?_, ?_⟩
  · obtain ⟨g1, g2, _, _⟩ := new_en_returns_invalid _ _ _ hk1
    exact ⟨g1, g2⟩
  · rintro ⟨i, hi, hinv⟩
    obtain ⟨k, _, _, h3, h4⟩ := new_en_of_invalid s i hi hinv
    have hne : ∀ j, (s.entities j).valid = true → j ≠ k := by
      intro j hj hjk
      subst hjk
      rw [hj] at h3
      exact Bool.noConfusion h3
    refine ⟨?_, ?_, ?_⟩
    · obtain ⟨s3, e1, e2, _, e4, _⟩ := projectile_init_of_new_en rl s pos dir k h4
      exact ⟨k, s3, e1, h3, e2, fun j hj => ⟨hne j hj, e4 j (hne j hj)⟩⟩
    · obtain ⟨s3, e1, e2, _, e4, _⟩ := player_init_of_new_en s data k h4
      exact ⟨k, s3, e1, h3, e2, fun j hj => ⟨hne j hj, e4 j (hne j hj)⟩⟩
    · obtain ⟨s3, e1, e2, _, e4, _⟩ := enemy_init_of_new_en s pos k h4
      exact ⟨k, s3, e1, h3, e2, fun j hj => ⟨hne j hj, e4 j (hne j hj)⟩⟩
  · intro hfull
    have h := new_en_full s hfull
    refine ⟨?_, ?_, ?_⟩
    · simp only [projectile_init, h, en_setup, State.write]
    · simp only [player_init, h, en_setup, State.write]
    · simp only [enemy_init, h, en_setup, State.write]

/-- Witness for C8 on the pool with slots 0, 1, 2 valid: slot 3 is free, and
an enemy spawned there leaves slot 1 as it was. -/
theorem init_never_reuses_valid_slot_witness :
    (∃ s1, enemy_init three_valid ⟨9, 9⟩ = .ok (some 3, s1) ∧
      s1.entities 1 = three_valid.entities 1) ∧
    (∃ k s1, projectile_init raylib_int three_valid ⟨9, 9⟩ ⟨1, 0⟩ = .ok (some k, s1) ∧
      (three_valid.entities k).valid = false ∧ (s1.entities k).valid = true ∧
      ∀ j, (three_valid.entities j).valid = true → j ≠ k ∧
        s1.entities j = three_valid.entities j) :=
  ⟨⟨_, rfl, rfl⟩,
   ((init_never_reuses_valid_slot raylib_int three_valid ⟨9, 9⟩ ⟨1, 0⟩ 64).2.1
      ⟨3, by decide, rfl⟩).1⟩

theorem get_all_with_type_loop_eq (s : State F) (type : EntityType) (n : Nat) :
    ∀ (i : Nat) (found : List Nat),
      get_all_with_type_loop s type n i found
        = found ++ (List.range' i n).filter
            (fun j => (s.entities j).valid && decide ((s.entities j).type = type)) := by
  induction n with
  | zero => intro i found; simp [get_all_with_type_loop]
  | succ n ih =>
    intro i found
    simp only [get_all_with_type_loop, List.range'_succ, List.filter_cons]
    cases hv : (s.entities i).valid with
    | false => simp [ih]
    | true =>
      by_cases ht : (s.entities i).type = type
      · simp [ih, ht]
      · simp [ih, ht]

theorem get_all_with_type_eq (s : State F) (type : EntityType) :
    get_all_with_type s type = (List.range MAX_ENTITIES).filter
      (fun j => (s.entities j).valid && decide ((s.entities j).type = type)) := by
  rw [get_all_with_type, get_all_with_type_loop_eq, List.nil_append, List.range_eq_range']

theorem mem_get_all_with_type (s : State F) (type : EntityType) (i : Nat) :
    i ∈ get_all_with_type s type ↔
      i < MAX_ENTITIES ∧ (s.entities i).valid = true ∧ (s.entities i).type = type := by
  rw [get_all_with_type_eq]
  simp [List.mem_filter, List.mem_range]

/-- C5: for every pool state and type `T`, `get_all_with_type(T)` returns the
slots `i` with `entities[i].valid` true and `entities[i].type == T`, exactly
those, each once, in strictly ascending slot order; and the list a caller
holds keeps exactly those slots whatever pool-changing calls run afterwards. -/
theorem get_all_with_type_exact [Zero F] [Add F] [Sub F] [Mul F] [IntCast F] (s : State F)
    (type : EntityType) :
    (∀ i, i ∈ get_all_with_type s type ↔
      i < MAX_ENTITIES ∧ (s.entities i).valid = true ∧ (s.entities i).type = type) ∧
    (get_all_with_type s type).Pairwise (fun a b => a < b) ∧
    (get_all_with_type s type).Nodup ∧
    ∀ (ops : List (Raylib F × PoolOp F)) (found : daa Nat) (s1 : State F),
      query_then_run s type ops = .ok (found, s1) →
      run_pool ops s = .ok s1 ∧
      ∀ i, i ∈ found ↔
        i < MAX_ENTITIES ∧ (s.entities i).valid = true ∧ (s.entities i).type = type := by
  have hsorted : (get_all_with_type s type).Pairwise (fun a b => a < b) := by
    rw [get_all_with_type_eq]
    exact List.Pairwise.filter _ (List.pairwise_lt_range MAX_ENTITIES)
  refine ⟨mem_get_all_with_type s type, hsorted, ?_, ?_⟩
  · exact hsorted.imp (fun hab => Nat.ne_of_lt hab)
  · intro ops found s1 hq
    simp only [query_then_run] at hq
    cases hrun : run_pool ops s with
    | error e =>
      rw [hrun] at hq
      exact Except.noConfusion hq
    | ok s2 =>
      rw [hrun] at hq
      simp only [Except.ok.injEq, Prod.mk.injEq] at hq
      obtain ⟨hf, hs⟩ := hq
      subst hf
      subst hs
      exact ⟨rfl, mem_get_all_with_type s type⟩


theorem handles_ok_initial [Zero F] : (State.initial : State F).handles_ok := by
  intro i hv
  simp [State.initial, Entity.zeroed] at hv

theorem handles_ok_of_narrows (s s1 : State F) (h : s.narrows s1) (hok : s.handles_ok) :
    s1.handles_ok := by
  intro i hv
  rw [(h i).1]
  exact hok i ((h i).2 hv)

theorem narrows_refl (s : State F) : s.narrows s := fun _ => ⟨rfl, fun h => h⟩

theorem narrows_trans (s s1 s2 : State F) (h1 : s.narrows s1) (h2 : s1.narrows s2) :
    s.narrows s2 :=
  fun i => ⟨(h2 i).1.trans (h1 i).1, fun h => (h1 i).2 ((h2 i).2 h)⟩

/-- Replacing a record by one with the same handle that is valid only if the
old one was narrows the pool. -/
theorem narrows_set (s : State F) (k : Nat) (e : Entity F)
    (hh : e.handle = (s.entities k).handle)
    (hv : e.valid = true → (s.entities k).valid = true) : s.narrows (s.set k e) := by
  intro i
  by_cases hik : i = k
  · subst hik
    simp only [State.set_entities_same]
    exact ⟨hh, hv⟩
  · rw [State.set_entities_ne _ _ _ _ hik]
    exact ⟨rfl, fun h => h⟩

theorem narrows_score (s : State F) (n : Int) : s.narrows { s with score := n } :=
  fun _ => ⟨rfl, fun h => h⟩

theorem projectile_update_loop_narrows (rl : Raylib F) (self : Nat) (l : List Nat) :
    ∀ s : State F, s.narrows (projectile_update_loop rl self l s) := by
  induction l with
  | nil => intro s; exact narrows_refl s
  | cons en rest ih =>
    intro s
    simp only [projectile_update_loop]
    split
    · have h1 := narrows_set s en { s.entities en with valid := false } rfl
        (fun h => Bool.noConfusion h)
      have h2 := narrows_set (s.set en { s.entities en with valid := false }) self
        { (s.set en { s.entities en with valid := false }).entities self with valid := false }
        rfl (fun h => Bool.noConfusion h)
      exact narrows_trans _ _ _ h1 (narrows_trans _ _ _ h2 (narrows_score _ _))
    · exact ih s

theorem projectile_update_narrows [Add F] [Mul F] (rl : Raylib F) (s : State F) (self : Nat) :
    s.narrows (projectile_update rl s self) := by
  have h1 := narrows_set s self
    { s.entities self with
      pos := { x := (s.entities self).pos.x + (s.entities self).vel.x * rl.GetFrameTime,
               y := (s.entities self).pos.y + (s.entities self).vel.y * rl.GetFrameTime } }
    rfl (fun h => h)
  exact narrows_trans _ _ _ h1 (projectile_update_loop_narrows rl self _ _)

theorem enemy_update_narrows [Sub F] [Mul F] [IntCast F] (rl : Raylib F) (s s1 : State F)
    (self : Nat) (h : enemy_update rl s self = .ok s1) : s.narrows s1 := by
  simp only [enemy_update] at h
  cases hp : s.player with
  | none =>
    rw [hp] at h
    exact Except.noConfusion h
  | some p =>
    rw [hp] at h
    simp only at h
    generalize rl.Vector2MoveTowards (s.entities self).pos (s.entities p).pos
      (((100 : Int) : F) * rl.GetFrameTime) = moved at h
    have hmove := narrows_set s self { s.entities self with pos := moved } rfl (fun h => h)
    generalize s.set self { s.entities self with pos := moved } = sa at h hmove
    split at h
    · simp only [Except.ok.injEq] at h
      subst h
      have h2 := narrows_set sa p
        { sa.entities p with health := (sa.entities p).health - ((1 : Int) : F) } rfl
        (fun h => h)
      generalize sa.set p
        { sa.entities p with health := (sa.entities p).health - ((1 : Int) : F) } = sb at h2
      have h3 := narrows_set sb self { sb.entities self with valid := false } rfl
        (fun h => Bool.noConfusion h)
      exact narrows_trans _ _ _ hmove (narrows_trans _ _ _ h2 h3)
    · simp only [Except.ok.injEq] at h
      subst h
      exact hmove

theorem update_entity_narrows [Add F] [Sub F] [Mul F] [IntCast F] (rl : Raylib F)
    (s s1 : State F) (i : Nat) (h : update_entity rl s i = .ok s1) : s.narrows s1 := by
  simp only [update_entity] at h
  split at h
  · simp only [Except.ok.injEq] at h
    subst h
    exact narrows_refl s
  · split at h
    · simp only [Except.ok.injEq] at h
      subst h
      exact narrows_refl s
    · simp only [Except.ok.injEq] at h
      subst h
      exact projectile_update_narrows rl s i
    · exact enemy_update_narrows rl s s1 i h

/-- A pool that agrees with a good one outside slot `k`, and whose slot `k`
is invalid or carries handle `k`, is good. -/
theorem handles_ok_of_slot (s s1 : State F) (k : Nat) (hok : s.handles_ok)
    (hk : (s1.entities k).valid = true → (s1.entities k).handle = (k : Int))
    (hrest : ∀ j, j ≠ k → s1.entities j = s.entities j) : s1.handles_ok := by
  intro i hv
  by_cases hik : i = k
  · subst hik
    exact hk hv
  · rw [hrest i hik] at hv ⊢
    exact hok i hv

theorem new_en_handles_ok (s s1 : State F) (p : Option Nat) (hok : s.handles_ok)
    (h : new_en s = .ok (p, s1)) : s1.handles_ok := by
  rcases new_en_cases s with ⟨k, _, _, _, h4⟩ | ⟨_, h2⟩
  · rw [h4] at h
    simp only [Except.ok.injEq, Prod.mk.injEq] at h
    obtain ⟨_, hs⟩ := h
    subst hs
    exact handles_ok_of_slot s _ k hok (fun _ => by simp)
      (fun j hj => State.set_entities_ne _ _ _ _ hj)
  · rw [h2] at h
    simp only [Except.ok.injEq, Prod.mk.injEq] at h
    obtain ⟨_, hs⟩ := h
    subst hs
    exact hok

theorem apply_handles_ok [Zero F] [Add F] [Sub F] [Mul F] [IntCast F] (rl : Raylib F)
    (s s1 : State F) (op : PoolOp F) (hok : s.handles_ok) (h : op.apply rl s = .ok s1) :
    s1.handles_ok := by
  cases op with
  | new_en =>
    simp only [PoolOp.apply] at h
    cases hn : new_en s with
    | error e => rw [hn] at h; exact Except.noConfusion h
    | ok res =>
      obtain ⟨p, s2⟩ := res
      rw [hn] at h
      simp only [Except.ok.injEq] at h
      subst h
      exact new_en_handles_ok s _ p hok hn
  | player_init data =>
    simp only [PoolOp.apply] at h
    rcases new_en_cases s with ⟨k, _, _, _, h4⟩ | ⟨_, h2⟩
    · obtain ⟨s3, e1, _, e3, e4, _⟩ := player_init_of_new_en s data k h4
      rw [e1] at h
      simp only [Except.ok.injEq] at h
      subst h
      exact handles_ok_of_slot s _ k hok (fun _ => e3) e4
    · simp [player_init, h2, en_setup, State.write] at h
  | enemy_init pos =>
    simp only [PoolOp.apply] at h
    rcases new_en_cases s with ⟨k, _, _, _, h4⟩ | ⟨_, h2⟩
    · obtain ⟨s3, e1, _, e3, e4, _⟩ := enemy_init_of_new_en s pos k h4
      rw [e1] at h
      simp only [Except.ok.injEq] at h
      subst h
      exact handles_ok_of_slot s _ k hok (fun _ => e3) e4
    · simp [enemy_init, h2, en_setup, State.write] at h
  | projectile_init pos dir =>
    simp only [PoolOp.apply] at h
    rcases new_en_cases s with ⟨k, _, _, _, h4⟩ | ⟨_, h2⟩
    · obtain ⟨s3, e1, _, e3, e4, _⟩ := projectile_init_of_new_en rl s pos dir k h4
      rw [e1] at h
      simp only [Except.ok.injEq] at h
      subst h
      exact handles_ok_of_slot s _ k hok (fun _ => e3) e4
    · simp [projectile_init, h2, en_setup, State.write] at h
  | en_invalidate k =>
    simp only [PoolOp.apply] at h
    split at h
    · simp only [en_invalidate, State.write, Except.ok.injEq] at h
      subst h
      exact handles_ok_of_slot s _ k hok
        (fun hv => by simp [Entity.zeroed] at hv)
        (fun j hj => State.set_entities_ne _ _ _ _ hj)
    · exact Except.noConfusion h
  | update i =>
    simp only [PoolOp.apply] at h
    split at h
    · exact handles_ok_of_narrows s s1 (update_entity_narrows rl s s1 i h) hok
    · exact Except.noConfusion h

theorem run_pool_handles_ok [Zero F] [Add F] [Sub F] [Mul F] [IntCast F]
    (ops : List (Raylib F × PoolOp F)) :
    ∀ (s s1 : State F), s.handles_ok → run_pool ops s = .ok s1 → s1.handles_ok := by
  induction ops with
  | nil =>
    intro s s1 hok h
    simp only [run_pool, Except.ok.injEq] at h
    subst h
    exact hok
  | cons x rest ih =>
    intro s s1 hok h
    obtain ⟨rl, op⟩ := x
    simp only [run_pool] at h
    cases ha : op.apply rl s with
    | error e => rw [ha] at h; exact Except.noConfusion h
    | ok s2 =>
      rw [ha] at h
      exact ih s2 s1 (apply_handles_ok rl s s2 op hok ha) h

/-- C9: in every pool state reachable from the zeroed pool through `new_en`,
the init routines, `en_invalidate` and the update routines, every valid
object's handle equals its index in the pool array. -/
theorem valid_handle_eq_index [Zero F] [Add F] [Sub F] [Mul F] [IntCast F] (s : State F)
    (hs : Reachable s) (i : Nat) (hv : (s.entities i).valid = true) :
    (s.entities i).handle = (i : Int) := by
  obtain ⟨ops, hrun⟩ := hs
  exact run_pool_handles_ok ops State.initial s handles_ok_initial hrun i hv

/-- Witness for C9: after the player and one enemy are spawned, slot 1 is
valid and carries handle 1. -/
theorem valid_handle_eq_index_witness :
    Reachable (pool_after spawn_ops) ∧ ((pool_after spawn_ops).entities 1).valid = true ∧
    ((pool_after spawn_ops).entities 1).handle = ((1 : Nat) : Int) :=
  ⟨⟨spawn_ops, rfl⟩, rfl,
   valid_handle_eq_index (pool_after spawn_ops) ⟨spawn_ops, rfl⟩ 1 rfl⟩

/-- C7, what the code does: the enemy that hits the player is retired by
`self->valid = false` alone, not by `en_invalidate`. After the init and
update calls of `enemy_dies_ops` slot 1 is invalid yet still holds type
`ET_ENEMY`, health 10 and size 20; the projectile then spawned into slot 1
is handed the enemy's health 10 (the player's record shows the health a
never-used slot gives: only what its init routine sets). -/
theorem dead_slot_keeps_stale_fields :
    reuse_ops.all (fun p => p.2.is_init_or_update) = true ∧
    run_pool enemy_dies_ops State.initial = .ok (pool_after enemy_dies_ops) ∧
    ((pool_after enemy_dies_ops).entities 1).valid = false ∧
    ((pool_after enemy_dies_ops).entities 1).type = .ET_ENEMY ∧
    ((pool_after enemy_dies_ops).entities 1).health = 10 ∧
    ((pool_after enemy_dies_ops).entities 1).size = ⟨20, 20⟩ ∧
    (pool_after enemy_dies_ops).entities 1 ≠ Entity.zeroed ∧
    run_pool reuse_ops State.initial = .ok (pool_after reuse_ops) ∧
    ((pool_after reuse_ops).entities 1).valid = true ∧
    ((pool_after reuse_ops).entities 1).type = .ET_PROJECTILE ∧
    ((pool_after reuse_ops).entities 1).health = 10 := by
  refine ⟨by decide, rfl, by decide!, by decide!, by decide!, by decide!, by decide!, rfl,
    by decide!, by decide!, by decide!⟩

end PoolProofs

end Jw6
